import Mathlib

/-!
Shallow embedding of the data-share configuration tool
(`src/datashare/streamlit/streamlit_app.py`).

The program keeps a per-session mutable dictionary (`st.session_state`)
holding the in-progress share configuration, mutated by UI event handlers.
We embed that dictionary as an explicit `State` value and each handler as a
function `State → ...`.  External collaborators (the warehouse client
`session.sql`, `json.load`/`json.loads`, the streamlit widgets) are modelled
by their results passed in as parameters; everything the repository itself
computes is translated directly from the source.
-/

/-- A JSON value, as produced by Python's `json` module.  Python `dict`s are
modelled as insertion-ordered association lists; `json.load` never produces
duplicate keys (later duplicates overwrite), so objects built by the program
have pairwise-distinct keys. `None` is `null`. -/
inductive Json where
  | null : Json
  | bool (b : Bool) : Json
  | num (n : Int) : Json
  | str (s : String) : Json
  | arr (xs : List Json) : Json
  | obj (kvs : List (String × Json)) : Json

/-- A hashable (scalar) JSON value: the values Python may use as `dict`
keys without raising `TypeError`.  (`True == 1` key collisions across types
are not modelled; the program only ever keys these dictionaries by column
name strings.) -/
inductive Scalar where
  | null : Scalar
  | bool (b : Bool) : Scalar
  | num (n : Int) : Scalar
  | str (s : String) : Scalar
deriving DecidableEq, Repr

/-- The scalar view of a JSON value; `none` for `list`/`dict`
(unhashable in Python). -/
def Json.asScalar : Json → Option Scalar
  | .null => some .null
  | .bool b => some (.bool b)
  | .num n => some (.num n)
  | .str s => some (.str s)
  | .arr _ => none
  | .obj _ => none

/-- The error kinds named by the specification (§7).  The source reports all
of them through `st.error` messages or by widget-level constraints; we tag
each rejection path with the corresponding spec error name. -/
inductive Err where
  /-- `st.error("Invalid JSON format. It must contain 'database_name' and 'tables' keys.")` -/
  | InvalidConfigDocumentError : Err
  /-- `datetime.strptime` raised `ValueError` (date string does not match `%Y-%m-%d`),
  caught by the generic `except Exception` handler. -/
  | InvalidDateFormatError : Err
  /-- `json.loads` raised `JSONDecodeError`, caught at the editor. -/
  | MalformedJSONError : Err
  /-- The database-selection control is not offered once `database_selected`
  is set (the `if not st.session_state.database_selected:` render guard). -/
  | InvalidStateError : Err
  /-- The `st.date_input` widget rejects values outside `[min_value, max_value]`. -/
  | OutOfRangeError : Err
  /-- Any other exception caught by a generic `except` handler
  (e.g. `strptime(None, ...)` raising `TypeError`). -/
  | ProcessingError : Err
deriving DecidableEq, Repr

/-- A calendar date (Python `datetime.date`). -/
structure Date where
  year : Nat
  month : Nat
  day : Nat
deriving DecidableEq, Repr

/-- Association-list lookup, modelling Python `dict.get(k)` /
`k in d` (keys are pairwise distinct in dictionaries the program builds). -/
def assocGet {α β : Type} [DecidableEq α] : List (α × β) → α → Option β
  | [], _ => none
  | (k', v) :: rest, k => if k' = k then some v else assocGet rest k

/-- Association-list update, modelling Python `d[k] = v`: an existing key
keeps its position, a new key is appended. -/
def assocSet {α β : Type} [DecidableEq α] : List (α × β) → α → β → List (α × β)
  | [], k, v => [(k, v)]
  | (k', v') :: rest, k, v =>
      if k' = k then (k, v) :: rest else (k', v') :: assocSet rest k v

/-- Association-list removal, modelling Python `d.pop(k, None)` (keys are
unique in a `dict`, so removing every pair with key `k` equals removing the
one entry when present). -/
def assocPop {α β : Type} [DecidableEq α] (kvs : List (α × β)) (k : α) : List (α × β) :=
  kvs.filter (fun kv => decide (kv.1 ≠ k))

/-- Python `d.setdefault(k, v)`. -/
def assocSetdefault {α β : Type} [DecidableEq α] (kvs : List (α × β)) (k : α) (v : β) :
    List (α × β) :=
  if (assocGet kvs k).isSome then kvs else kvs ++ [(k, v)]

/-- Python falsiness of a JSON value (`None`, `False`, `0`, `""`, `[]`, `{}`). -/
def jFalsy : Json → Bool
  | .null => true
  | .bool b => !b
  | .num n => n == 0
  | .str s => s.data.isEmpty
  | .arr xs => xs.isEmpty
  | .obj kvs => kvs.isEmpty

/-- Python truthiness of the result of a `dict.get` (absent key gives `None`,
which is falsy). -/
def optTruthy : Option Json → Bool
  | none => false
  | some j => !jFalsy j

/-- The ASCII digit character for `n % 10`. -/
def digitChar (n : Nat) : Char := Char.ofNat (48 + n % 10)

/-- Leap-year rule used by Python's `datetime`. -/
def isLeapYear (y : Nat) : Bool := (y % 4 == 0 && y % 100 != 0) || (y % 400 == 0)

/-- Number of days in a month, as enforced by `datetime.date`. -/
def daysInMonth (y m : Nat) : Nat :=
  if m == 2 then (if isLeapYear y then 29 else 28)
  else if m == 4 || m == 6 || m == 9 || m == 11 then 30
  else 31

/-- A date `datetime.date` accepts: year in `[MINYEAR, MAXYEAR] = [1, 9999]`,
month in `[1, 12]`, day in `[1, daysInMonth]`. -/
def Date.Valid (d : Date) : Prop :=
  1 ≤ d.year ∧ d.year ≤ 9999 ∧ 1 ≤ d.month ∧ d.month ≤ 12 ∧
    1 ≤ d.day ∧ d.day ≤ daysInMonth d.year d.month

instance (d : Date) : Decidable d.Valid := by unfold Date.Valid; infer_instance

/-- Python `str(date)`, i.e. `date.isoformat()`: zero-padded `YYYY-MM-DD`
(the form serialized by `final_json_output`). -/
def dateToString (d : Date) : String :=
  String.mk [digitChar (d.year / 1000), digitChar (d.year / 100),
             digitChar (d.year / 10), digitChar d.year, '-',
             digitChar (d.month / 10), digitChar d.month, '-',
             digitChar (d.day / 10), digitChar d.day]

/-- Consume up to `max` leading decimal digits (the greedy matching of a
`strptime` numeric directive). -/
def takeDigits : Nat → List Char → List Char × List Char
  | 0, cs => ([], cs)
  | _ + 1, [] => ([], [])
  | m + 1, c :: rest =>
      if c.isDigit then
        let (ds, r) := takeDigits m rest
        (c :: ds, r)
      else ([], c :: rest)

/-- Decimal value of a digit string. -/
def digitsToNat (cs : List Char) : Nat :=
  cs.foldl (fun a c => a * 10 + (c.toNat - 48)) 0

/-- `datetime.strptime(s, '%Y-%m-%d').date()`: `%Y` matches 1–4 digits,
`%m` and `%d` match 1–2 digits, the dashes are literal, nothing may remain,
and the resulting (year, month, day) must form a valid `datetime.date`.
Returns `none` where Python raises `ValueError`. -/
def parseDate (s : String) : Option Date :=
  let (yds, r1) := takeDigits 4 s.data
  if yds.length = 0 then none else
  match r1 with
  | '-' :: r2 =>
    let (mds, r3) := takeDigits 2 r2
    if mds.length = 0 then none else
    match r3 with
    | '-' :: r4 =>
      let (dds, r5) := takeDigits 2 r4
      if dds.length = 0 ∨ r5 ≠ [] then none
      else
        let y := digitsToNat yds
        let m := digitsToNat mds
        let dd := digitsToNat dds
        if 1 ≤ y ∧ 1 ≤ m ∧ m ≤ 12 ∧ 1 ≤ dd ∧ dd ≤ daysInMonth y m then
          some ⟨y, m, dd⟩
        else none
    | _ => none
  | _ => none

/-- The successor day (used to model `today + timedelta(days=n)`). -/
def nextDay (d : Date) : Date :=
  if d.day < daysInMonth d.year d.month then ⟨d.year, d.month, d.day + 1⟩
  else if d.month < 12 then ⟨d.year, d.month + 1, 1⟩
  else ⟨d.year + 1, 1, 1⟩

/-- `d + timedelta(days=n)`. -/
def addDays (d : Date) : Nat → Date
  | 0 => d
  | n + 1 => addDays (nextDay d) n

/-- Strict comparison of dates (Python `date < date`). -/
def dateLt (a b : Date) : Bool :=
  a.year < b.year ||
    (a.year == b.year && (a.month < b.month ||
      (a.month == b.month && a.day < b.day)))

/-- `config.toml`'s `app_settings` as far as this model needs it
(`max_retention_days`; the table-exclusion patterns, share-name templates
and environment table only feed collaborator calls). -/
structure AppSettings where
  max_retention_days : Nat
deriving DecidableEq, Repr

/-- One per-table entry of `st.session_state.cached_table_metadata[db]`. -/
structure ColsEntry where
  all_columns : List String
  date_columns : List String
deriving DecidableEq, Repr

/-- `st.session_state.cached_table_metadata`: database name → table name →
column lists. -/
abbrev Cache := List (String × List (String × ColsEntry))

/-- The session-state keys owned by the configuration model
(`st.session_state.setdefault` block, source lines 233–243).  Values a
handler may store verbatim from parsed JSON are typed `Json`
(Python `None` is `Json.null`). -/
structure State where
  database_selected : Bool
  source_db_name : Json
  available_tables : List String
  selected_tables : List String
  table_transforms : List (String × Json)
  current_transform_table : Option String
  global_filter_date : Date
  data_retention_date : Date
  cached_table_metadata : Cache
  share_requested_by : Json
  share_requested_reason : Json

/-- `reset_app(clear_all=True)` (lines 220–230) followed by the next script
run's `setdefault` re-initialisation (lines 233–243): every model-owned key
returns to its default (`initial_config` and `db_list` live outside this
model and are preserved).  `today` is `datetime.today().date()` at the time
the defaults are re-applied. -/
def reset_app (today : Date) : State :=
  { database_selected := false
    source_db_name := .null
    available_tables := []
    selected_tables := []
    table_transforms := []
    current_transform_table := none
    global_filter_date := today
    data_retention_date := today
    cached_table_metadata := []
    share_requested_by := .null
    share_requested_reason := .str "" }

/-- The state after the very first script run: the `setdefault` block plus
`get_initial_config` (line 30), which sets `data_retention_date` to
`today + timedelta(days=max_retention_days)`. -/
def initState (cfg : AppSettings) (today : Date) : State :=
  { reset_app today with data_retention_date := addDays today cfg.max_retention_days }

/-- `selectDatabase`: the "Confirm Database Selection" handler
(lines 287–292).  The whole selection control is rendered only under
`if not st.session_state.database_selected:` (line 271), so once a database
context exists the action is refused; we surface that refusal as the spec's
`InvalidStateError`.  `tableList` is the collaborator result of
`get_table_list(name)`. -/
def selectDatabase (s : State) (name : String) (tableList : List String) :
    State × Option Err :=
  if s.database_selected then (s, some .InvalidStateError)
  else ({ s with database_selected := true, source_db_name := .str name,
                 available_tables := tableList }, none)

/-- Python falsiness of `current_transform_table` (a string or `None`). -/
def optStrFalsy : Option String → Bool
  | none => true
  | some c => c.isEmpty

/-- `addTables`: the "Add Selected Tables >>" handler (lines 332–342),
rendered only when `database_selected`.  Appends each item not already in
`selected_tables`, creates an empty transform via `setdefault`, and if
`current_transform_table` is falsy and something was added, points it at
the first newly added name.  Returns the `newly_added` list. -/
def addTables (s : State) (to_select : List String) : State × List String :=
  if s.database_selected then
    let acc := to_select.foldl
      (fun (acc : List String × List (String × Json) × List String) item =>
        if item ∈ acc.1 then acc
        else (acc.1 ++ [item], assocSetdefault acc.2.1 item (.obj []), acc.2.2 ++ [item]))
      (s.selected_tables, s.table_transforms, [])
    let newly := acc.2.2
    let cur := if optStrFalsy s.current_transform_table && !newly.isEmpty then
                 newly.head?
               else s.current_transform_table
    ({ s with selected_tables := acc.1, table_transforms := acc.2.1,
              current_transform_table := cur }, newly)
  else (s, [])

/-- `removeTables`: the "<< Remove Selected Tables" handler (lines 351–358),
rendered only when `database_selected`.  The multiselect options are
`selected_tables`, so each removed item is a (unique) member of it;
`list.remove` drops the first occurrence and `dict.pop(item, None)` deletes
the transform.  Then, if `current_transform_table` is no longer selected,
it becomes the first remaining table, or `None` if none remain. -/
def removeTables (s : State) (to_remove : List String) : State :=
  if s.database_selected then
    let sel := to_remove.foldl (fun acc item => acc.erase item) s.selected_tables
    let tts := to_remove.foldl (fun acc item => assocPop acc item) s.table_transforms
    let keep : Bool :=
      match s.current_transform_table with
      | some c => decide (c ∈ sel)
      | none => false
    { s with selected_tables := sel, table_transforms := tts,
             current_transform_table :=
               if keep then s.current_transform_table else sel.head? }
  else s

/-- `setRetentionDate`: the retention `st.date_input` (lines 309–319).
When `max_retention_days > 0` the widget rejects any value outside
`[today, today + timedelta(days=max_retention_days)]` (its
`min_value`/`max_value`); we surface that rejection as the spec's
`OutOfRangeError`.  Otherwise the `else` branch pins
`data_retention_date` to `date(9999, 12, 31)` regardless of the input. -/
def setRetentionDate (cfg : AppSettings) (today : Date) (s : State) (d : Date) :
    State × Option Err :=
  if cfg.max_retention_days > 0 then
    if dateLt d today || dateLt (addDays today cfg.max_retention_days) d then
      (s, some .OutOfRangeError)
    else ({ s with data_retention_date := d }, none)
  else ({ s with data_retention_date := ⟨9999, 12, 31⟩ }, none)

/-- `setGlobalFilterDate`: the `sync_date_widget` callback (lines 369–377). -/
def setGlobalFilterDate (s : State) (d : Date) : State :=
  { s with global_filter_date := d }

/-- The `dict` view of a JSON value; `none` where Python would raise
(`AttributeError`/`TypeError`) on `dict` operations. -/
def Json.asObj : Json → Option (List (String × Json))
  | .obj kvs => some kvs
  | _ => none

/-- The `list` view of a JSON value; `none` where Python iteration /
indexing of a list is required but the value is not a list. -/
def Json.asArr : Json → Option (List Json)
  | .arr xs => some xs
  | _ => none

/-- `setDateFilter`: the date-filter checkbox/selectbox pass
(lines 394, 407–418).  The surrounding render pass has already run
`table_transforms.setdefault(table, {})` (line 394).  When the checkbox is
on, `table_transforms[table]["filter"] = {"date_column": col}`; otherwise
`table_transforms[table].pop("filter", None)`.  `none` models the Python
`TypeError` raised when `table_transforms[table]` is not a dict (possible
after a raw JSON edit). -/
def set_date_filter (s : State) (table : String) (enabled : Bool) (col : String) :
    Option State :=
  let tts := assocSetdefault s.table_transforms table (.obj [])
  match ((assocGet tts table).getD (.obj [])).asObj with
  | none => none
  | some tkvs =>
    let tkvs2 := if enabled then assocSet tkvs "filter" (.obj [("date_column", .str col)])
                 else assocPop tkvs "filter"
    some { s with table_transforms := assocSet tts table (.obj tkvs2) }

/-- The dict comprehension
`{mc["mask_column"]: mc.get("masked_tag", "") for mc in current_masking_list}`
(line 423): builds the tag dictionary left to right, a later duplicate key
overwriting an earlier one.  `none` models the Python error raised when an
entry is not a dict, lacks `"mask_column"`, or its `mask_column` value is
unhashable. -/
def buildTags : List Json → List (Scalar × Json) → Option (List (Scalar × Json))
  | [], acc => some acc
  | e :: rest, acc =>
    match e with
    | .obj ekvs =>
      match assocGet ekvs "mask_column" with
      | some kv =>
        match kv.asScalar with
        | some k =>
            buildTags rest (assocSet acc k ((assocGet ekvs "masked_tag").getD (.str "")))
        | none => none
      | none => none
    | _ => none

/-- `setMaskedColumns`: the mask multiselect pass (lines 394, 422–440).
Reads the current `mask.columns` list, builds the existing-tag dictionary,
then either replaces `table_transforms[table]["mask"]` with
`{"columns": [{"mask_column": col, "masked_tag": tag}, ...]}` in selection
order (a previously masked column keeping its tag, a new one getting `""`),
or — when the selection is empty — pops the `"mask"` key.  `none` models a
Python error on structurally ill-formed transform data. -/
def mask_handler (s : State) (table : String) (selected_mask_cols : List String) :
    Option State :=
  let tts := assocSetdefault s.table_transforms table (.obj [])
  match ((assocGet tts table).getD (.obj [])).asObj with
  | none => none
  | some tkvs =>
    match ((assocGet tkvs "mask").getD (.obj [])).asObj with
    | none => none
    | some mkvs =>
      match ((assocGet mkvs "columns").getD (.arr [])).asArr with
      | none => none
      | some entries =>
        match buildTags entries [] with
        | none => none
        | some tags =>
          if selected_mask_cols.isEmpty then
            some { s with table_transforms := assocSet tts table (.obj (assocPop tkvs "mask")) }
          else
            let newList := selected_mask_cols.map (fun col =>
              Json.obj [("mask_column", .str col),
                        ("masked_tag", (assocGet tags (.str col)).getD (.str ""))])
            let tkvs2 := assocSet tkvs "mask" (.obj [("columns", .arr newList)])
            some { s with table_transforms := assocSet tts table (.obj tkvs2) }

/-- `mergeRawTransform`: the direct JSON editor (lines 453–457).
`loads_result` is the outcome of the library call
`json.loads(edited_json_str)` (`none` when it raises `JSONDecodeError`).
On success the parsed value replaces `table_transforms[table]` verbatim;
on failure the state is untouched and an error is shown. -/
def transform_json_editor (s : State) (table : String) (loads_result : Option Json) :
    State × Option Err :=
  match loads_result with
  | some parsed =>
      ({ s with table_transforms := assocSet s.table_transforms table parsed }, none)
  | none => (s, some .MalformedJSONError)

/-- `str.split(sep)` for a single-character separator, over the character
list. -/
def splitOnChar (c : Char) : List Char → List (List Char)
  | [] => [[]]
  | x :: rest =>
      let r := splitOnChar c rest
      if x = c then [] :: r
      else
        match r with
        | [] => [[x]]
        | y :: ys => (x :: y) :: ys

/-- `full_table_name.split('.')` unpacked into `schema, table`:
raises (ValueError) unless there are exactly two parts. -/
def splitTwo (s : String) : Option (String × String) :=
  match splitOnChar '.' s.data with
  | [a, b] => some (String.mk a, String.mk b)
  | _ => none

/-- `fetch_and_cache_table_columns` (lines 61–84).  The empty
`{'all_columns': [], 'date_columns': []}` entry is inserted *before* the
warehouse queries run; on any failure (bad table name, failed query) the
`except` handler only reports, so the empty (or half-filled) entry stays
cached.  `lookupAll`/`lookupDate` are the collaborator query results
(`none` = the query raised). -/
def fetch_and_cache_table_columns
    (lookupAll lookupDate : String → String → Option (List String))
    (cache : Cache) (db_name full_table_name : String) : Cache :=
  let cache1 := if (assocGet cache db_name).isSome then cache
                else assocSet cache db_name []
  let entries := (assocGet cache1 db_name).getD []
  if (assocGet entries full_table_name).isSome then cache1
  else
    let entries1 := assocSet entries full_table_name ⟨[], []⟩
    let entries2 :=
      match splitTwo full_table_name with
      | none => entries1
      | some _ =>
        match lookupAll db_name full_table_name with
        | none => entries1
        | some allc =>
          let entries3 := assocSet entries1 full_table_name ⟨allc, []⟩
          match lookupDate db_name full_table_name with
          | none => entries3
          | some datec => assocSet entries3 full_table_name ⟨allc, datec⟩
    assocSet cache1 db_name entries2

/-- `get_columns_cached` (lines 118–126): fetch only when the `(db, table)`
entry is absent, then read the requested column list with `.get` defaults. -/
def get_columns_cached
    (lookupAll lookupDate : String → String → Option (List String))
    (cache : Cache) (db_name full_table_name column_type : String) :
    Cache × List String :=
  let present := ((assocGet cache db_name).bind
                    (fun e => assocGet e full_table_name)).isSome
  let cache2 := if present then cache
                else fetch_and_cache_table_columns lookupAll lookupDate cache
                       db_name full_table_name
  let cols :=
    match (assocGet cache2 db_name).bind (fun e => assocGet e full_table_name) with
    | some e => if column_type == "all" then e.all_columns else e.date_columns
    | none => []
  (cache2, cols)

/-- `toJSON`: `final_json_output` (lines 467–475).  `current_user` is
`st.user.email`; dates are serialized with `str(...)` (ISO `YYYY-MM-DD`). -/
def final_json_output (current_user : String) (s : State) : Json :=
  .obj [("database_name", s.source_db_name),
        ("data_retention_date", .str (dateToString s.data_retention_date)),
        ("share_created_by", .str current_user.toUpper),
        ("share_requested_by", s.share_requested_by),
        ("share_requested_reason", s.share_requested_reason),
        ("filter_date", .str (dateToString s.global_filter_date)),
        ("tables", .obj s.table_transforms)]

/-- The tail of a successful `process_uploaded_config` run (lines 197–207):
set `current_transform_table` to the first selected table when any exists,
then refresh `available_tables` with the collaborator's `get_table_list`
result and succeed. -/
def loadFinish (tableList : List String) (s4 : State) : State × Option Err :=
  let s5 := if s4.selected_tables.isEmpty then s4
            else { s4 with current_transform_table := s4.selected_tables.head? }
  ({ s5 with available_tables := tableList }, none)

/-- `loadFromJSON`: `process_uploaded_config` (lines 160–212), taken from
the point where `json.load` has produced `config_data`.  The key facts
mirrored from the source, in statement order:
the `database_name`/`tables` presence check happens *before* any mutation;
then `reset_app(clear_all=True, rerun=False)` clears the state;
`database_selected`, `source_db_name`, `selected_tables`,
`table_transforms` and the requester fields are assigned;
only *then* is `data_retention_date` parsed — `config_data.get` returned
`None` when the key is absent and `datetime.strptime(None, ...)` raises
`TypeError`, so a document without (or with an unparseable)
`data_retention_date` errors out *after* the state was reset and partially
populated (caught by the generic `except`, keys not yet assigned keep
their re-initialised defaults);
`filter_date` is parsed only when truthy, else it defaults to today;
finally `current_transform_table` and the refreshed `available_tables`
(collaborator result `tableList`) are set and the load succeeds. -/
def process_uploaded_config (today : Date) (tableList : List String)
    (s : State) (config_data : Json) : State × Option Err :=
  match config_data with
  | .obj kvs =>
    match assocGet kvs "database_name", assocGet kvs "tables" with
    | some dbv, some tablesv =>
      let s1 := { reset_app today with database_selected := true, source_db_name := dbv }
      match tablesv with
      | .obj tkvs =>
        let s2 := { s1 with
          selected_tables := tkvs.map Prod.fst
          table_transforms := tkvs
          share_requested_by := (assocGet kvs "share_requested_by").getD .null
          share_requested_reason := (assocGet kvs "share_requested_reason").getD .null }
        match assocGet kvs "data_retention_date" with
        | some (.str rs) =>
          match parseDate rs with
          | some rd =>
            let s3 := { s2 with data_retention_date := rd }
            let gfd := assocGet kvs "filter_date"
            if optTruthy gfd then
              match gfd with
              | some (.str fs) =>
                match parseDate fs with
                | some fd => loadFinish tableList { s3 with global_filter_date := fd }
                | none => (s3, some .InvalidDateFormatError)
              | _ => (s3, some .ProcessingError)
            else
              loadFinish tableList { s3 with global_filter_date := today }
          | none => (s2, some .InvalidDateFormatError)
        | some _ => (s2, some .ProcessingError)
        | none => (s2, some .ProcessingError)
      | _ => (s1, some .ProcessingError)
    | _, _ => (s, some .InvalidConfigDocumentError)
  | _ => (s, some .ProcessingError)

/-- The states a session can reach: the initial script run, followed by any
sequence of UI events.  Each constructor carries, as side conditions, the
render guards under which the source offers that event (multiselect options
bound what can be submitted, the transform section requires a selected
table, the JSON editor additionally requires a truthy transform). -/
inductive Reachable (cfg : AppSettings) : State → Prop where
  | init (today : Date) : Reachable cfg (initState cfg today)
  | load {s} (today : Date) (tableList : List String) (doc : Json) :
      Reachable cfg s → Reachable cfg (process_uploaded_config today tableList s doc).1
  | selectDB {s} (name : String) (tableList : List String) :
      Reachable cfg s → Reachable cfg (selectDatabase s name tableList).1
  | resetBtn {s} (today : Date) : Reachable cfg s → Reachable cfg (reset_app today)
  | addT {s} (names : List String) :
      Reachable cfg s → Reachable cfg (addTables s names).1
  | removeT {s} (names : List String) :
      Reachable cfg s → names.Nodup → (∀ n ∈ names, n ∈ s.selected_tables) →
      Reachable cfg (removeTables s names)
  | setRet {s} (today : Date) (d : Date) :
      Reachable cfg s → s.database_selected = true →
      Reachable cfg (setRetentionDate cfg today s d).1
  | setGlobal {s} (d : Date) :
      Reachable cfg s → s.selected_tables ≠ [] →
      Reachable cfg (setGlobalFilterDate s d)
  | selTransform {s} (t : String) :
      Reachable cfg s → s.selected_tables ≠ [] → t ∈ s.selected_tables →
      Reachable cfg { s with current_transform_table := some t,
                             table_transforms := assocSetdefault s.table_transforms t (.obj []) }
  | dateFilter {s s' : State} (table : String) (enabled : Bool) (col : String) :
      Reachable cfg s → s.selected_tables ≠ [] →
      s.current_transform_table = some table →
      set_date_filter s table enabled col = some s' → Reachable cfg s'
  | maskSel {s s' : State} (table : String) (cols : List String) :
      Reachable cfg s → s.selected_tables ≠ [] →
      s.current_transform_table = some table → cols.Nodup →
      mask_handler s table cols = some s' → Reachable cfg s'
  | editor {s} (table : String) (loads_result : Option Json) :
      Reachable cfg s → s.selected_tables ≠ [] →
      s.current_transform_table = some table →
      optTruthy (assocGet s.table_transforms table) = true →
      Reachable cfg (transform_json_editor s table loads_result).1

/-- The `mask_column` values of `tr["mask"]["columns"]`, read with the same
`.get` defaults the mask pass uses; `[]` when the shape is absent or not of
the canonical form. -/
def maskColumnValues (tr : Json) : List Json :=
  match tr with
  | .obj tkvs =>
    match assocGet tkvs "mask" with
    | some (.obj mkvs) =>
      match assocGet mkvs "columns" with
      | some (.arr xs) =>
          xs.filterMap (fun e =>
            match e with
            | .obj ekvs => assocGet ekvs "mask_column"
            | _ => none)
      | _ => []
    | _ => []
  | _ => []

/-- The spec invariant (§3): the `mask.columns` entries of table `t`'s
transform have pairwise-distinct `mask_column` values (vacuously true when
`t` has no transform). -/
def MaskUniqueAt (s : State) (t : String) : Prop :=
  match assocGet s.table_transforms t with
  | some tr => (maskColumnValues tr).Nodup
  | none => True

/-- The raw entry list of `tr["mask"]["columns"]` under the same `.get`
defaults (`{}`/`[]`) the mask pass uses. -/
def maskEntriesOf (tr : Json) : List Json :=
  match tr with
  | .obj tkvs =>
    match assocGet tkvs "mask" with
    | some (.obj mkvs) =>
      match assocGet mkvs "columns" with
      | some (.arr xs) => xs
      | _ => []
    | _ => []
  | _ => []

/-- The tag a well-formed mask entry assigns to column `c`
(its `masked_tag`, defaulting to `""`), `none` if the entry is for another
column or not keyed by a string. -/
def tagOfEntry (c : String) (e : Json) : Option Json :=
  match e with
  | .obj ekvs =>
    match assocGet ekvs "mask_column" with
    | some (.str c') =>
        if c' = c then some ((assocGet ekvs "masked_tag").getD (.str "")) else none
    | _ => none
  | _ => none

/-- The tag the *last* entry for column `c` in `entries` carries
(`""` when no entry names `c`): the "existing tag" the dict comprehension
of line 423 ends up keeping, since a later duplicate overwrites an earlier
one. -/
def lastMaskTag (entries : List Json) (c : String) : Json :=
  (entries.reverse.findSome? (tagOfEntry c)).getD (.str "")

/-- A fixed session date used by the concrete examples below. -/
def today0 : Date := ⟨2024, 6, 1⟩

/-- A fixed `app_settings` (30-day retention ceiling) for the examples. -/
def cfg0 : AppSettings := ⟨30⟩

/-- The state of the first script run under `cfg0`. -/
def exState0 : State := initState cfg0 today0

/-- `exState0` after confirming database `"DB"`. -/
def exState1 : State := (selectDatabase exState0 "DB" ["S.T", "S.U"]).1

/-- `exState1` after adding table `"S.T"`. -/
def exState2 : State := (addTables exState1 ["S.T"]).1

/-- `exState2` after enabling the date filter on `"S.T"` with column `"D"`. -/
def exState3 : State :=
  { exState2 with
    table_transforms := [("S.T", .obj [("filter", .obj [("date_column", .str "D")])])] }

/-- A transform object, as the JSON editor could parse it, whose
`mask.columns` entries repeat the same `mask_column`. -/
def dupMaskJson : Json :=
  .obj [("mask", .obj [("columns", .arr
    [.obj [("mask_column", .str "A"), ("masked_tag", .str "")],
     .obj [("mask_column", .str "A"), ("masked_tag", .str "x")]])])]

/-- `exState3` after submitting `dupMaskJson` through the JSON editor. -/
def exState4 : State := { exState3 with table_transforms := [("S.T", dupMaskJson)] }

/-- A populated pre-load configuration used to exhibit the loss of state on
a failed load. -/
def c2_prior : State :=
  { reset_app today0 with
    database_selected := true
    source_db_name := .str "OLD"
    selected_tables := ["A.B"]
    table_transforms := [("A.B", .obj [("filter", .obj [("date_column", .str "X")])])]
    current_transform_table := some "A.B" }

/-- An uploaded document with the two required keys but an unparseable
`data_retention_date`. -/
def c2_doc : Json :=
  .obj [("database_name", .str "NEW"),
        ("tables", .obj [("S.T", .obj [])]),
        ("data_retention_date", .str "not a date")]

/-- An uploaded document containing exactly the two required keys
(`database_name` and `tables`) and nothing else. -/
def c3_doc : Json := .obj [("database_name", .str "SALES"), ("tables", .obj [])]

/-- `j[k]` / `j.get(k)` on a JSON value known to be an object
(`none` when the key is absent or `j` is not an object). -/
def jsonGet (j : Json) (k : String) : Option Json :=
  match j with
  | .obj kvs => assocGet kvs k
  | _ => none

/-- The `mask.columns` entry list of table `table`'s transform in state `s`,
with the `.get` defaults of the mask pass. -/
def prevMaskEntries (s : State) (table : String) : List Json :=
  maskEntriesOf ((assocGet s.table_transforms table).getD (.obj []))

/-- A state whose table `"S.T"` already masks column `"A"` with tag `"T1"`
(used to exercise tag preservation). -/
def c10_prior : State :=
  { c2_prior with
    selected_tables := ["S.T"]
    current_transform_table := some "S.T"
    table_transforms := [("S.T", .obj [("mask", .obj [("columns", .arr
      [.obj [("mask_column", .str "A"), ("masked_tag", .str "T1")]])])])] }

/-! ### General lemmas about the helper functions -/

theorem digitChar_isDigit (n : Nat) : (digitChar n).isDigit = true := by
  obtain ⟨k, hk, he⟩ : ∃ k, k < 10 ∧ n % 10 = k :=
    ⟨n % 10, Nat.mod_lt _ (by norm_num), rfl⟩
  unfold digitChar
  rw [he]
  interval_cases k <;> decide

theorem digitChar_toNat (n : Nat) : (digitChar n).toNat = 48 + n % 10 := by
  obtain ⟨k, hk, he⟩ : ∃ k, k < 10 ∧ n % 10 = k :=
    ⟨n % 10, Nat.mod_lt _ (by norm_num), rfl⟩
  unfold digitChar
  rw [he]
  interval_cases k <;> decide

theorem dash_not_digit : ('-').isDigit = false := by decide

theorem daysInMonth_le_31 (y m : Nat) : daysInMonth y m ≤ 31 := by
  unfold daysInMonth
  split_ifs <;> omega

/-- Serializing a valid date with `str(...)` and re-parsing it with
`strptime('%Y-%m-%d')` gives the date back. -/
theorem parseDate_dateToString (d : Date) (h : d.Valid) :
    parseDate (dateToString d) = some d := by
  obtain ⟨hy1, hy2, hm1, hm2, hd1, hd2⟩ := h
  have e1 : digitsToNat [digitChar (d.year / 1000), digitChar (d.year / 100),
      digitChar (d.year / 10), digitChar d.year] = d.year := by
    simp [digitsToNat, digitChar_toNat]
    omega
  have e2 : digitsToNat [digitChar (d.month / 10), digitChar d.month] = d.month := by
    simp [digitsToNat, digitChar_toNat]
    omega
  have e3 : digitsToNat [digitChar (d.day / 10), digitChar d.day] = d.day := by
    have h31 : daysInMonth d.year d.month ≤ 31 := daysInMonth_le_31 d.year d.month
    simp [digitsToNat, digitChar_toNat]
    omega
  simp only [parseDate, dateToString, takeDigits, digitChar_isDigit, dash_not_digit,
    if_true, if_false, Bool.false_eq_true]
  simp only [e1, e2, e3]
  simp [hy1, hm1, hm2, hd1, hd2]

theorem dateToString_data_ne_nil (d : Date) : (dateToString d).data.isEmpty = false := by
  simp [dateToString]

theorem assocGet_assocSet {α β : Type} [DecidableEq α] (kvs : List (α × β)) (k q : α)
    (v : β) : assocGet (assocSet kvs k v) q = if k = q then some v else assocGet kvs q := by
  induction kvs with
  | nil => simp [assocSet, assocGet]
  | cons hd tl ih =>
    obtain ⟨k', v'⟩ := hd
    by_cases h1 : k' = k
    · subst h1
      simp only [assocSet, if_pos rfl]
      by_cases h2 : k' = q <;> simp [assocGet, h2]
    · simp only [assocSet, if_neg h1]
      by_cases h2 : k' = q
      · subst h2
        have h3 : ¬ k = k' := fun h => h1 h.symm
        simp [assocGet, h3]
      · simp [assocGet, h2, ih]

theorem assocGet_assocPop {α β : Type} [DecidableEq α] (kvs : List (α × β)) (k q : α) :
    assocGet (assocPop kvs k) q = if q = k then none else assocGet kvs q := by
  induction kvs with
  | nil => simp [assocPop, assocGet]
  | cons hd tl ih =>
    obtain ⟨k', v'⟩ := hd
    by_cases h1 : k' = k <;> by_cases h3 : k' = q <;> by_cases h2 : q = k <;>
      simp_all [assocPop, List.filter_cons, assocGet]

theorem assocGet_append {α β : Type} [DecidableEq α] (l1 l2 : List (α × β)) (q : α) :
    assocGet (l1 ++ l2) q =
      match assocGet l1 q with
      | some v => some v
      | none => assocGet l2 q := by
  induction l1 with
  | nil => simp [assocGet]
  | cons hd tl ih =>
    obtain ⟨k', v'⟩ := hd
    by_cases h : k' = q <;> simp [assocGet, h, ih]

theorem assocGet_assocSetdefault {α β : Type} [DecidableEq α] (kvs : List (α × β))
    (k : α) (v : β) (q : α) :
    assocGet (assocSetdefault kvs k v) q =
      if q = k then some ((assocGet kvs k).getD v) else assocGet kvs q := by
  unfold assocSetdefault
  rcases h1 : assocGet kvs k with _ | w
  · simp only [h1, Option.isSome_none, Bool.false_eq_true, if_false, assocGet_append]
    by_cases h2 : q = k
    · subst h2
      simp [h1, assocGet]
    · have h2' : ¬ k = q := fun hh => h2 hh.symm
      rcases h3 : assocGet kvs q with _ | u <;> simp [assocGet, h2, h2', h3]
  · simp only [h1, Option.isSome_some, if_true]
    by_cases h2 : q = k
    · subst h2
      simp [h1]
    · simp [h2]

theorem findSome?_append_eq {α β : Type} (l1 l2 : List α) (f : α → Option β) :
    (l1 ++ l2).findSome? f =
      match l1.findSome? f with
      | some v => some v
      | none => l2.findSome? f := by
  induction l1 with
  | nil => simp
  | cons x xs ih =>
    simp only [List.cons_append, List.findSome?_cons]
    rcases h : f x with _ | v <;> simp [h, ih]

/-- Looking a column name up in the dictionary built by the comprehension of
line 423 finds the tag of the *last* matching entry (later duplicates
overwrite earlier ones), falling back to whatever the accumulator held. -/
theorem buildTags_lookup (entries : List Json) (acc tags : List (Scalar × Json))
    (h : buildTags entries acc = some tags) (c : String) :
    assocGet tags (.str c) =
      match entries.reverse.findSome? (tagOfEntry c) with
      | some v => some v
      | none => assocGet acc (.str c) := by
  induction entries generalizing acc with
  | nil =>
    simp only [buildTags] at h
    cases h
    simp
  | cons e rest ih =>
    rcases e with _ | b | n | st | xs | ekvs
    · simp [buildTags] at h
    · simp [buildTags] at h
    · simp [buildTags] at h
    · simp [buildTags] at h
    · simp [buildTags] at h
    · simp only [buildTags] at h
      split at h
      next kv hkv =>
        split at h
        next k hks =>
          have hrec := ih _ h
          rw [List.reverse_cons, findSome?_append_eq]
          rw [hrec, assocGet_assocSet]
          have htag : [Json.obj ekvs].findSome? (tagOfEntry c) = tagOfEntry c (.obj ekvs) := by
            rcases htg : tagOfEntry c (.obj ekvs) with _ | v <;>
              simp [List.findSome?_cons, htg]
          rw [htag]
          rcases kv with _ | b' | n' | s' | xs' | kvs' <;> simp only [Json.asScalar] at hks <;>
            cases hks
          · simp only [tagOfEntry, hkv]
            rcases hfs : List.findSome? (tagOfEntry c) rest.reverse with _ | v <;> simp [hfs]
          · simp only [tagOfEntry, hkv]
            rcases hfs : List.findSome? (tagOfEntry c) rest.reverse with _ | v <;> simp [hfs]
          · simp only [tagOfEntry, hkv]
            rcases hfs : List.findSome? (tagOfEntry c) rest.reverse with _ | v <;> simp [hfs]
          · simp only [tagOfEntry, hkv]
            by_cases hc : s' = c
            · rw [hc]
              simp only [if_pos rfl]
              rcases hfs : List.findSome? (tagOfEntry c) rest.reverse with _ | v <;>
                simp [hfs]
            · have hc2 : ¬ Scalar.str s' = Scalar.str c := by
                intro hh
                exact hc (Scalar.str.inj hh)
              simp only [if_neg hc, if_neg hc2]
              rcases hfs : List.findSome? (tagOfEntry c) rest.reverse with _ | v <;>
                simp [hfs]
        next hks => simp at h
      next hkv => simp at h

theorem not_mem_foldl_erase_of_not_mem {t : String} (names : List String)
    {l : List String} (h : t ∉ l) :
    t ∉ names.foldl (fun acc item => acc.erase item) l := by
  induction names generalizing l with
  | nil => exact h
  | cons n rest ih =>
    exact ih (fun hm => h (List.mem_of_mem_erase hm))

theorem not_mem_foldl_erase {t : String} {names : List String} {l : List String}
    (hnd : l.Nodup) (ht : t ∈ names) :
    t ∉ names.foldl (fun acc item => acc.erase item) l := by
  induction names generalizing l with
  | nil => cases ht
  | cons n rest ih =>
    rcases List.mem_cons.mp ht with h | h
    · subst h
      exact not_mem_foldl_erase_of_not_mem rest hnd.not_mem_erase
    · exact ih (hnd.erase n) h

theorem assocGet_foldl_pop_none {t : String} (names : List String)
    {tts : List (String × Json)} (h : assocGet tts t = none) :
    assocGet (names.foldl (fun acc item => assocPop acc item) tts) t = none := by
  induction names generalizing tts with
  | nil => exact h
  | cons n rest ih =>
    refine ih ?_
    rw [assocGet_assocPop]
    split <;> simp [h]

theorem assocGet_foldl_pop_of_mem {t : String} {names : List String}
    (tts : List (String × Json)) (ht : t ∈ names) :
    assocGet (names.foldl (fun acc item => assocPop acc item) tts) t = none := by
  induction names generalizing tts with
  | nil => cases ht
  | cons n rest ih =>
    rcases List.mem_cons.mp ht with h | h
    · subst h
      exact assocGet_foldl_pop_none rest (by rw [assocGet_assocPop]; simp)
    · exact ih _ h

theorem loadFinish_database_selected (tl : List String) (s4 : State) :
    (loadFinish tl s4).1.database_selected = s4.database_selected := by
  unfold loadFinish
  split <;> rfl

theorem load_unchanged_or_selected (today : Date) (tl : List String) (s : State)
    (doc : Json) :
    (process_uploaded_config today tl s doc).1 = s ∨
      (process_uploaded_config today tl s doc).1.database_selected = true := by
  simp only [process_uploaded_config]
  repeat' split
  all_goals
    first
    | (left; rfl)
    | (right; rfl)
    | (right; rw [loadFinish_database_selected])

theorem mask_handler_frame {s s' : State} {t : String} {cols : List String}
    (h : mask_handler s t cols = some s') :
    s'.database_selected = s.database_selected ∧
      s'.selected_tables = s.selected_tables ∧
      s'.current_transform_table = s.current_transform_table := by
  simp only [mask_handler] at h
  repeat' split at h
  all_goals cases h
  all_goals exact ⟨rfl, rfl, rfl⟩

theorem set_date_filter_frame {s s' : State} {t : String} {e : Bool} {c : String}
    (h : set_date_filter s t e c = some s') :
    s'.database_selected = s.database_selected ∧
      s'.selected_tables = s.selected_tables ∧
      s'.current_transform_table = s.current_transform_table := by
  simp only [set_date_filter] at h
  repeat' split at h
  all_goals cases h
  all_goals exact ⟨rfl, rfl, rfl⟩

/-- Session invariant: whenever some table is selected, a database context
has been confirmed (the table-selection UI only renders once
`database_selected` is set, and every path that populates
`selected_tables` also sets the flag). -/
theorem reachable_database_selected {cfg : AppSettings} {s : State}
    (h : Reachable cfg s) : s.selected_tables ≠ [] → s.database_selected = true := by
  induction h with
  | init today => intro hne; exact absurd rfl hne
  | load today tl doc _ ih =>
    rcases load_unchanged_or_selected today tl _ doc with heq | hdb
    · rw [heq]; exact ih
    · intro _; exact hdb
  | selectDB name tl _ ih =>
    rename_i s0 _
    unfold selectDatabase
    by_cases hdb : s0.database_selected = true
    · simp [hdb]
    · simp only [Bool.not_eq_true] at hdb
      simp only [hdb, Bool.false_eq_true, if_false]
      intro _; trivial
  | resetBtn today _ _ => intro hne; exact absurd rfl hne
  | addT names _ ih =>
    rename_i s0 _
    unfold addTables
    by_cases hdb : s0.database_selected = true
    · simp [hdb]
    · simp only [Bool.not_eq_true] at hdb
      simp only [hdb, Bool.false_eq_true, if_false]
      intro hne
      rw [ih hne] at hdb
      exact Bool.noConfusion hdb
  | removeT names _ hnd hsub ih =>
    rename_i s0 _
    unfold removeTables
    by_cases hdb : s0.database_selected = true
    · simp [hdb]
    · simp only [Bool.not_eq_true] at hdb
      simp only [hdb, Bool.false_eq_true, if_false]
      intro hne
      rw [ih hne] at hdb
      exact Bool.noConfusion hdb
  | setRet today d _ hdb ih =>
    unfold setRetentionDate
    repeat' split
    all_goals simpa using ih
  | setGlobal d _ hne ih => simpa [setGlobalFilterDate] using ih
  | selTransform t _ hne hmem ih => simpa using ih
  | dateFilter table enabled col _ hne hcur heq ih =>
    obtain ⟨h1, h2, _⟩ := set_date_filter_frame heq
    rw [h1, h2]
    exact ih
  | maskSel table cols _ hne hcur hnd heq ih =>
    obtain ⟨h1, h2, _⟩ := mask_handler_frame heq
    rw [h1, h2]
    exact ih
  | editor table loads_result _ hne hcur htr ih =>
    unfold transform_json_editor
    repeat' split
    all_goals simpa using ih

/-! ### Claim C5 -/

/-- C5: `setRetentionDate(d)` fails with `OutOfRangeError` for every date
earlier than today or later than `today + max_retention_days` when
`max_retention_days > 0`, leaving `data_retention_date` unchanged; when
`max_retention_days = 0` the setter ignores its input and pins
`data_retention_date` to the sentinel `9999-12-31`. -/
theorem c5_setRetentionDate_bounds (cfg : AppSettings) (today : Date) (s : State)
    (d : Date) :
    (cfg.max_retention_days > 0 →
      (dateLt d today = true ∨ dateLt (addDays today cfg.max_retention_days) d = true) →
      setRetentionDate cfg today s d = (s, some .OutOfRangeError)) ∧
    (cfg.max_retention_days = 0 →
      (setRetentionDate cfg today s d).1.data_retention_date = ⟨9999, 12, 31⟩ ∧
        (setRetentionDate cfg today s d).2 = none) := by
  constructor
  · intro hpos hout
    unfold setRetentionDate
    rcases hout with hl | hl <;> simp [hpos, hl]
  · intro hzero
    unfold setRetentionDate
    simp [hzero]

theorem c5_setRetentionDate_bounds_witness :
    setRetentionDate cfg0 today0 exState1 ⟨2024, 5, 1⟩ = (exState1, some .OutOfRangeError) ∧
      (setRetentionDate ⟨0⟩ today0 exState1 ⟨2030, 1, 1⟩).1.data_retention_date
        = ⟨9999, 12, 31⟩ := by
  constructor
  · exact (c5_setRetentionDate_bounds cfg0 today0 exState1 ⟨2024, 5, 1⟩).1 (by decide)
      (Or.inl (by decide))
  · exact ((c5_setRetentionDate_bounds ⟨0⟩ today0 exState1 ⟨2030, 1, 1⟩).2 rfl).1

/-! ### Claim C4 -/

/-- C4: once tables have been selected (which, by the session invariant,
only happens under a confirmed database context), the database-selection
action is refused (`InvalidStateError`) and the whole state — in particular
`database_name` — is left unchanged.  Hence `database_name` can only be
set when no tables are selected. -/
theorem c4_selectDatabase_guard (cfg : AppSettings) (s : State) (name : String)
    (tl : List String) (hr : Reachable cfg s) (hsel : s.selected_tables ≠ []) :
    selectDatabase s name tl = (s, some .InvalidStateError) := by
  have hdb := reachable_database_selected hr hsel
  unfold selectDatabase
  simp [hdb]

theorem c4_selectDatabase_guard_witness :
    selectDatabase exState2 "OTHER" [] = (exState2, some .InvalidStateError) := by
  have h0 : Reachable cfg0 exState0 := Reachable.init today0
  have h1 : Reachable cfg0 exState1 := Reachable.selectDB "DB" ["S.T", "S.U"] h0
  have h2 : Reachable cfg0 exState2 := Reachable.addT ["S.T"] h1
  exact c4_selectDatabase_guard cfg0 exState2 "OTHER" [] h2 (by decide)

/-! ### Claim C3 -/

/-- C3 (code bug): a document with `database_name` and `tables` but no
`data_retention_date` key does *not* load with a default retention date:
`config_data.get("data_retention_date")` yields `None`,
`strptime(None, '%Y-%m-%d')` raises `TypeError`, and the load aborts with
an error — after the prior state was already reset and partially
repopulated (`source_db_name` is the document's, the retention date is the
post-reset default `today`). -/
theorem c3_missing_retention_date_errors :
    (process_uploaded_config today0 [] c2_prior c3_doc).2 = some .ProcessingError ∧
      (process_uploaded_config today0 [] c2_prior c3_doc).1.source_db_name = .str "SALES" ∧
      (process_uploaded_config today0 [] c2_prior c3_doc).1.data_retention_date = today0 := by
  exact ⟨rfl, rfl, rfl⟩

/-! ### Claim C2 -/

/-- C2 (counterexample): loading a document whose `data_retention_date`
fails to parse does *not* leave the pre-load configuration intact — the
handler reset and partially repopulated the state before the parse raised. -/
theorem c2_load_not_atomic_counterexample :
    (process_uploaded_config today0 [] c2_prior c2_doc).2.isSome = true ∧
      ¬ ((process_uploaded_config today0 [] c2_prior c2_doc).1 = c2_prior) := by
  refine ⟨rfl, fun h => ?_⟩
  have h2 : (process_uploaded_config today0 [] c2_prior c2_doc).1.source_db_name
      = .str "NEW" := rfl
  rw [h] at h2
  have h3 : c2_prior.source_db_name = .str "OLD" := rfl
  rw [h3] at h2
  exact absurd (Json.str.inj h2) (by decide)

/-- C2 (amended): `mergeRawTransform` is atomic — input that does not parse
as JSON leaves `table_transforms` unchanged and reports
`MalformedJSONError` — but `loadFromJSON` is not: when
`data_retention_date` is present but unparseable, the load errors out with
the prior configuration already cleared and partially overwritten by the
document (its `database_name`, `tables` keys and transforms are in place,
the date fields and `current_transform_table` sit at their post-reset
defaults). -/
theorem c2_amended_atomicity :
    (∀ (s : State) (t : String),
       transform_json_editor s t none = (s, some .MalformedJSONError)) ∧
    (∀ (today : Date) (tl : List String) (s : State) (kvs : List (String × Json))
       (dbv rv : Json) (tkvs : List (String × Json)),
       assocGet kvs "database_name" = some dbv →
       assocGet kvs "tables" = some (.obj tkvs) →
       assocGet kvs "data_retention_date" = some rv →
       (∀ rs, rv = .str rs → parseDate rs = none) →
       (process_uploaded_config today tl s (.obj kvs)).2.isSome = true ∧
         (process_uploaded_config today tl s (.obj kvs)).1.source_db_name = dbv ∧
         (process_uploaded_config today tl s (.obj kvs)).1.table_transforms = tkvs ∧
         (process_uploaded_config today tl s (.obj kvs)).1.selected_tables
           = tkvs.map Prod.fst ∧
         (process_uploaded_config today tl s (.obj kvs)).1.data_retention_date = today ∧
         (process_uploaded_config today tl s (.obj kvs)).1.global_filter_date = today ∧
         (process_uploaded_config today tl s (.obj kvs)).1.current_transform_table = none ∧
         (process_uploaded_config today tl s (.obj kvs)).1.available_tables = []) := by
  constructor
  · intro s t
    rfl
  · intro today tl s kvs dbv rv tkvs h1 h2 h3 h4
    rcases rv with _ | b | n | rs | xs | okvs
    · simp only [process_uploaded_config, h1, h2, h3]
      simp [reset_app]
    · simp only [process_uploaded_config, h1, h2, h3]
      simp [reset_app]
    · simp only [process_uploaded_config, h1, h2, h3]
      simp [reset_app]
    · simp only [process_uploaded_config, h1, h2, h3, h4 rs rfl]
      simp [reset_app]
    · simp only [process_uploaded_config, h1, h2, h3]
      simp [reset_app]
    · simp only [process_uploaded_config, h1, h2, h3]
      simp [reset_app]

theorem c2_amended_atomicity_witness :
    transform_json_editor c2_prior "A.B" none = (c2_prior, some .MalformedJSONError) ∧
      (process_uploaded_config today0 [] c2_prior c2_doc).1.source_db_name
        = .str "NEW" := by
  constructor
  · exact c2_amended_atomicity.1 c2_prior "A.B"
  · exact (c2_amended_atomicity.2 today0 [] c2_prior
      [("database_name", .str "NEW"), ("tables", .obj [("S.T", .obj [])]),
        ("data_retention_date", .str "not a date")]
      (.str "NEW") (.str "not a date") [("S.T", .obj [])] rfl rfl rfl
      (fun rs h => by cases h; rfl)).2.1
theorem addTables_mem_noop (s : State) (t : String) (hdb : s.database_selected = true)
    (hmem : t ∈ s.selected_tables) : addTables s [t] = (s, []) := by
  unfold addTables
  rw [if_pos hdb]
  simp only [List.foldl_cons, List.foldl_nil, if_pos hmem]
  simp only [List.isEmpty_nil, Bool.not_true, Bool.and_false, Bool.false_eq_true, if_false]

/-! ### Claim C9 -/

/-- C9: adding an already-selected table is a no-op: the second
`addTables({t})` returns an empty newly-added list, changes nothing (in
particular `t`'s transform), and `t` occurs in `selected_tables` exactly
once. -/
theorem c9_addTables_idempotent (s : State) (t : String)
    (hdb : s.database_selected = true) (hcount : s.selected_tables.count t ≤ 1) :
    (addTables (addTables s [t]).1 [t]).1 = (addTables s [t]).1 ∧
      (addTables (addTables s [t]).1 [t]).2 = [] ∧
      (addTables (addTables s [t]).1 [t]).1.selected_tables.count t = 1 := by
  by_cases hmem : t ∈ s.selected_tables
  · have h1 := addTables_mem_noop s t hdb hmem
    rw [h1]
    have h1b : addTables (s, ([] : List String)).1 [t] = (s, []) := h1
    rw [h1b]
    refine ⟨rfl, rfl, ?_⟩
    exact Nat.le_antisymm hcount (List.count_pos_iff.mpr hmem)
  · have h1 : addTables s [t] =
        ({ s with
            selected_tables := s.selected_tables ++ [t],
            table_transforms := assocSetdefault s.table_transforms t (.obj []),
            current_transform_table :=
              if optStrFalsy s.current_transform_table then some t
              else s.current_transform_table },
          [t]) := by
      unfold addTables
      rw [if_pos hdb]
      simp only [List.foldl_cons, List.foldl_nil, if_neg hmem]
      simp only [List.nil_append, List.isEmpty_cons, Bool.not_false, Bool.and_true,
        List.head?_cons]
    have hdb2 : (addTables s [t]).1.database_selected = true := by
      rw [h1]
      exact hdb
    have hmem2 : t ∈ (addTables s [t]).1.selected_tables := by
      rw [h1]
      simp
    have h2 := addTables_mem_noop (addTables s [t]).1 t hdb2 hmem2
    rw [h2]
    refine ⟨rfl, rfl, ?_⟩
    rw [h1]
    simp only [List.count_append]
    rw [List.count_eq_zero.mpr hmem]
    simp

/-! ### Claim C8 -/

/-- C8: removing tables deletes them from `selected_tables` and erases their
transform entries entirely; if the removed set included
`current_transform_table`, it is reassigned to the first remaining selected
table (`none` when the selection became empty). -/
theorem c8_removeTables_spec (s : State) (names : List String)
    (hdb : s.database_selected = true) (hnd : s.selected_tables.Nodup) :
    (∀ t ∈ names, t ∉ (removeTables s names).selected_tables ∧
       assocGet (removeTables s names).table_transforms t = none) ∧
    (∀ c, s.current_transform_table = some c → c ∈ names →
       (removeTables s names).current_transform_table =
         (removeTables s names).selected_tables.head?) := by
  constructor
  · intro t ht
    constructor
    · simp only [removeTables, hdb, if_true]
      exact not_mem_foldl_erase hnd ht
    · simp only [removeTables, hdb, if_true]
      exact assocGet_foldl_pop_of_mem _ ht
  · intro c hc hcm
    have hnotin : c ∉ names.foldl (fun acc item => acc.erase item) s.selected_tables :=
      not_mem_foldl_erase hnd hcm
    simp only [removeTables, hdb, if_true, hc]
    rw [decide_eq_false hnotin]
    simp

theorem c9_addTables_idempotent_witness :
    (addTables (addTables exState1 ["S.T"]).1 ["S.T"]).1
        = (addTables exState1 ["S.T"]).1 ∧
      (addTables (addTables exState1 ["S.T"]).1 ["S.T"]).2 = [] ∧
      (addTables (addTables exState1 ["S.T"]).1 ["S.T"]).1.selected_tables.count "S.T"
        = 1 :=
  c9_addTables_idempotent exState1 "S.T" (by decide) (by decide)

theorem c8_removeTables_spec_witness :
    ("S.T" ∉ (removeTables exState2 ["S.T"]).selected_tables ∧
       assocGet (removeTables exState2 ["S.T"]).table_transforms "S.T" = none) ∧
      (removeTables exState2 ["S.T"]).current_transform_table
        = (removeTables exState2 ["S.T"]).selected_tables.head? :=
  ⟨(c8_removeTables_spec exState2 ["S.T"] (by decide) (by decide)).1 "S.T"
      (by decide),
    (c8_removeTables_spec exState2 ["S.T"] (by decide) (by decide)).2 "S.T" rfl
      (by decide)⟩

/-! ### Claim C1 -/

/-- C1: round trip.  For a valid configuration (database confirmed, the
selected tables being exactly the transform keys, dates in `datetime`'s
range), loading the serialized document succeeds and reproduces
`database_name`, the selected tables, the table transforms, both requester
fields, the retention date — and, since `toJSON` always emits an explicit
`filter_date`, the global filter date as well (the reset-to-today clause
only applies to documents lacking the key).  `share_created_by` is not
session state: re-serializing after the load stamps the loading user's
identity. -/
theorem c1_round_trip (user user2 : String) (today : Date) (tl : List String)
    (s : State)
    (hsel : s.selected_tables = s.table_transforms.map Prod.fst)
    (hret : s.data_retention_date.Valid) (hfil : s.global_filter_date.Valid) :
    (process_uploaded_config today tl s (final_json_output user s)).2 = none ∧
      (process_uploaded_config today tl s (final_json_output user s)).1.source_db_name
        = s.source_db_name ∧
      (process_uploaded_config today tl s (final_json_output user s)).1.selected_tables
        = s.selected_tables ∧
      (process_uploaded_config today tl s (final_json_output user s)).1.table_transforms
        = s.table_transforms ∧
      (process_uploaded_config today tl s (final_json_output user s)).1.share_requested_by
        = s.share_requested_by ∧
      (process_uploaded_config today tl s
          (final_json_output user s)).1.share_requested_reason
        = s.share_requested_reason ∧
      (process_uploaded_config today tl s
          (final_json_output user s)).1.data_retention_date
        = s.data_retention_date ∧
      (process_uploaded_config today tl s (final_json_output user s)).1.global_filter_date
        = s.global_filter_date ∧
      jsonGet (final_json_output user2
          (process_uploaded_config today tl s (final_json_output user s)).1)
        "share_created_by" = some (.str user2.toUpper) := by
  have hparse_r := parseDate_dateToString s.data_retention_date hret
  have hparse_f := parseDate_dateToString s.global_filter_date hfil
  have htruthy : optTruthy (some (.str (dateToString s.global_filter_date))) = true := by
    simp [optTruthy, jFalsy, dateToString_data_ne_nil]
  simp only [process_uploaded_config, final_json_output, assocGet]
  simp only [String.reduceEq, reduceIte]
  simp only [hparse_r, hparse_f, htruthy, if_true, Option.getD_some]
  unfold loadFinish
  rcases hemp : (List.map Prod.fst s.table_transforms).isEmpty with _ | _ <;>
    simp only [hemp, Bool.false_eq_true, if_false, if_true] <;>
    simp [reset_app, ← hsel] <;> rfl

set_option maxRecDepth 4096 in
theorem c1_round_trip_witness :
    (process_uploaded_config ⟨2025, 1, 2⟩ ["S.T"] exState3
        (final_json_output "loader@x" exState3)).2 = none ∧
      (process_uploaded_config ⟨2025, 1, 2⟩ ["S.T"] exState3
          (final_json_output "loader@x" exState3)).1.source_db_name
        = exState3.source_db_name ∧
      (process_uploaded_config ⟨2025, 1, 2⟩ ["S.T"] exState3
          (final_json_output "loader@x" exState3)).1.selected_tables
        = exState3.selected_tables ∧
      (process_uploaded_config ⟨2025, 1, 2⟩ ["S.T"] exState3
          (final_json_output "loader@x" exState3)).1.table_transforms
        = exState3.table_transforms ∧
      (process_uploaded_config ⟨2025, 1, 2⟩ ["S.T"] exState3
          (final_json_output "loader@x" exState3)).1.share_requested_by
        = exState3.share_requested_by ∧
      (process_uploaded_config ⟨2025, 1, 2⟩ ["S.T"] exState3
          (final_json_output "loader@x" exState3)).1.share_requested_reason
        = exState3.share_requested_reason ∧
      (process_uploaded_config ⟨2025, 1, 2⟩ ["S.T"] exState3
          (final_json_output "loader@x" exState3)).1.data_retention_date
        = exState3.data_retention_date ∧
      (process_uploaded_config ⟨2025, 1, 2⟩ ["S.T"] exState3
          (final_json_output "loader@x" exState3)).1.global_filter_date
        = exState3.global_filter_date ∧
      jsonGet (final_json_output "other@x"
          (process_uploaded_config ⟨2025, 1, 2⟩ ["S.T"] exState3
            (final_json_output "loader@x" exState3)).1)
        "share_created_by" = some (.str ("other@x").toUpper) :=
  c1_round_trip "loader@x" "other@x" ⟨2025, 1, 2⟩ ["S.T"] exState3
    (by decide) (by decide) (by decide)
theorem assocGet_assocSet_self {α β : Type} [DecidableEq α] (kvs : List (α × β))
    (k : α) (v : β) : assocGet (assocSet kvs k v) k = some v := by
  rw [assocGet_assocSet]
  simp

theorem filterMap_mask_columns (tags : List (Scalar × Json)) (cols : List String) :
    (cols.map (fun col => Json.obj [("mask_column", Json.str col),
        ("masked_tag", (assocGet tags (Scalar.str col)).getD (Json.str ""))])).filterMap
      (fun e => match e with
        | Json.obj ekvs => assocGet ekvs "mask_column"
        | _ => none) = cols.map Json.str := by
  induction cols with
  | nil => rfl
  | cons c rest ih =>
    simp only [List.map_cons, List.filterMap_cons, assocGet, String.reduceEq, reduceIte]
    rw [ih]

/-! ### Claim C6 -/

/-- C6 (counterexample): the mask-uniqueness invariant is *not* maintained
by every operation that writes `table_transforms`: the JSON editor
(`mergeRawTransform`) stores whatever object the user's text parsed to
verbatim, so a reachable session state carries duplicate `mask_column`
entries. -/
theorem c6_mask_unique_not_invariant :
    ¬ (∀ (s : State), Reachable cfg0 s → ∀ t, MaskUniqueAt s t) := by
  intro h
  have h0 : Reachable cfg0 exState0 := Reachable.init today0
  have h1 : Reachable cfg0 exState1 := Reachable.selectDB "DB" ["S.T", "S.U"] h0
  have h2 : Reachable cfg0 exState2 := Reachable.addT ["S.T"] h1
  have h3 : Reachable cfg0 exState3 :=
    Reachable.dateFilter "S.T" true "D" h2 (by decide) (by decide) rfl
  have h4 : Reachable cfg0 exState4 :=
    Reachable.editor "S.T" (some dupMaskJson) h3 (by decide) (by decide) rfl
  have h5 := h exState4 h4 "S.T"
  have hget : assocGet exState4.table_transforms "S.T" = some dupMaskJson := rfl
  have hvals : maskColumnValues dupMaskJson = [.str "A", .str "A"] := rfl
  unfold MaskUniqueAt at h5
  rw [hget] at h5
  simp only [hvals] at h5
  simp at h5

/-- C6 (amended): the structured mask setter does establish the invariant:
after a successful `setMaskedColumns` with a duplicate-free selection (the
multiselect widget never repeats an option), the written table's
`mask.columns` entries have pairwise-distinct `mask_column` values.  The
verbatim writers (`mergeRawTransform`, `loadFromJSON`) do not preserve it. -/
theorem c6_amended_mask_unique (s s' : State) (table : String)
    (cols : List String) (hnd : cols.Nodup)
    (h : mask_handler s table cols = some s') :
    MaskUniqueAt s' table := by
  simp only [mask_handler] at h
  split at h
  · cases h
  next tkvs hobj =>
    split at h
    · cases h
    next mkvs hmask =>
      split at h
      · cases h
      next entries hcols =>
        split at h
        · cases h
        next tags htags =>
          by_cases hemp : cols.isEmpty
          · rw [if_pos hemp] at h
            cases h
            simp only [MaskUniqueAt, assocGet_assocSet_self]
            simp only [maskColumnValues, assocGet_assocPop]
            simp
          · rw [if_neg hemp] at h
            cases h
            simp only [MaskUniqueAt, assocGet_assocSet_self]
            simp only [maskColumnValues, assocGet_assocSet_self, assocGet,
              String.reduceEq, reduceIte]
            rw [filterMap_mask_columns]
            exact hnd.map (fun a b hab => Json.str.inj hab)

theorem c6_amended_mask_unique_witness :
    MaskUniqueAt ((mask_handler exState3 "S.T" ["A", "B"]).getD exState3) "S.T" :=
  c6_amended_mask_unique exState3 ((mask_handler exState3 "S.T" ["A", "B"]).getD exState3)
    "S.T" ["A", "B"] (by decide) rfl
theorem Json.asObj_eq_some : ∀ {j : Json} {l : List (String × Json)},
    j.asObj = some l → j = .obj l
  | .obj kvs, l, h => by
      simp only [Json.asObj, Option.some.injEq] at h
      rw [h]
  | .null, _, h => by cases h
  | .bool _, _, h => by cases h
  | .num _, _, h => by cases h
  | .str _, _, h => by cases h
  | .arr _, _, h => by cases h

theorem Json.asArr_eq_some : ∀ {j : Json} {l : List Json},
    j.asArr = some l → j = .arr l
  | .arr xs, l, h => by
      simp only [Json.asArr, Option.some.injEq] at h
      rw [h]
  | .null, _, h => by cases h
  | .bool _, _, h => by cases h
  | .num _, _, h => by cases h
  | .str _, _, h => by cases h
  | .obj _, _, h => by cases h

/-! ### Claim C10 -/

/-- C10: a successful `setMaskedColumns` with a non-empty selection writes
`mask.columns` as exactly the selection, in selection order; each entry's
`masked_tag` is the tag of the last previous entry naming that column
(`""` for a column that was not previously masked). -/
theorem c10_mask_tags (s s' : State) (table : String) (cols : List String)
    (hne : ¬ cols.isEmpty = true) (h : mask_handler s table cols = some s') :
    jsonGet ((jsonGet ((assocGet s'.table_transforms table).getD .null) "mask").getD .null)
        "columns"
      = some (.arr (cols.map (fun col => Json.obj [("mask_column", .str col),
          ("masked_tag", lastMaskTag (prevMaskEntries s table) col)]))) := by
  simp only [mask_handler] at h
  split at h
  · cases h
  next tkvs hobj =>
    split at h
    · cases h
    next mkvs hmask =>
      split at h
      · cases h
      next entries hcols =>
        split at h
        · cases h
        next tags htags =>
          rw [if_neg hne] at h
          cases h
          have hprev : prevMaskEntries s table = entries := by
            unfold prevMaskEntries
            have hgetD : (assocGet s.table_transforms table).getD (.obj [])
                = (assocGet (assocSetdefault s.table_transforms table (.obj []))
                    table).getD (.obj []) := by
              rw [assocGet_assocSetdefault]
              simp
            rw [hgetD, Json.asObj_eq_some hobj]
            simp only [maskEntriesOf]
            rcases hm : assocGet tkvs "mask" with _ | mv
            · rw [hm] at hmask
              simp only [Option.getD_none] at hmask
              have h1 := Json.obj.inj (Json.asObj_eq_some hmask)
              subst h1
              simp only [assocGet, Option.getD_none] at hcols
              have h2 := Json.arr.inj (Json.asArr_eq_some hcols)
              subst h2
              rfl
            · rw [hm] at hmask
              simp only [Option.getD_some] at hmask
              have hmv := Json.asObj_eq_some hmask
              subst hmv
              rcases hc : assocGet mkvs "columns" with _ | cv
              · rw [hc] at hcols
                simp only [Option.getD_none] at hcols
                have h2 := Json.arr.inj (Json.asArr_eq_some hcols)
                subst h2
                simp [hc]
              · rw [hc] at hcols
                simp only [Option.getD_some] at hcols
                have hcv := Json.asArr_eq_some hcols
                subst hcv
                simp [hc]
          rw [hprev]
          have htag : ∀ col : String,
              (assocGet tags (Scalar.str col)).getD (Json.str "")
                = lastMaskTag entries col := by
            intro col
            unfold lastMaskTag
            rw [buildTags_lookup entries [] tags htags col]
            rcases hfs : entries.reverse.findSome? (tagOfEntry col) with _ | v <;>
              simp [hfs, assocGet]
          simp only [jsonGet, assocGet_assocSet_self, Option.getD_some, assocGet,
            String.reduceEq, reduceIte]
          congr 1
          congr 1
          congr 1
          funext col
          rw [htag col]

theorem c10_mask_tags_witness :
    jsonGet ((jsonGet ((assocGet ((mask_handler c10_prior "S.T"
          ["A", "B"]).getD c10_prior).table_transforms "S.T").getD .null)
        "mask").getD .null) "columns"
      = some (.arr (["A", "B"].map (fun col => Json.obj [("mask_column", .str col),
          ("masked_tag", lastMaskTag (prevMaskEntries c10_prior "S.T") col)]))) :=
  c10_mask_tags c10_prior ((mask_handler c10_prior "S.T" ["A", "B"]).getD c10_prior)
    "S.T" ["A", "B"] (by decide) rfl


/-! ### Claim C7 -/

/-- C7 (counterexample): after a failed column lookup the cache entry for
the pair is *present* (an empty placeholder), and a subsequent
`get_columns_cached` — even with a now-succeeding lookup — returns the
stale empty list instead of retrying. -/
theorem c7_stale_cache_counterexample :
    ((assocGet (get_columns_cached (fun _ _ => none) (fun _ _ => none)
        [] "DB" "S.T" "all").1 "DB").bind (fun e => assocGet e "S.T")
      = some ⟨[], []⟩) ∧
      (get_columns_cached (fun _ _ => some ["C1"]) (fun _ _ => some ["C1"])
        (get_columns_cached (fun _ _ => none) (fun _ _ => none)
          [] "DB" "S.T" "all").1 "DB" "S.T" "all").2 = [] := by
  exact ⟨rfl, rfl⟩

/-- C7 (amended): when the `(db, table)` entry is absent and the column
query fails, `fetch_and_cache_table_columns` still leaves the empty
placeholder entry in the cache, the call returns `[]`, and every subsequent
`get_columns_cached` for the pair — whatever its lookups would now return —
finds the placeholder and returns `[]` without refetching. -/
theorem c7_amended_failed_lookup_caches_empty
    (lookupAll lookupDate : String → String → Option (List String))
    (cache : Cache) (db t ctype : String)
    (habs : (assocGet cache db).bind (fun e => assocGet e t) = none)
    (hfail : lookupAll db t = none) :
    ((assocGet (get_columns_cached lookupAll lookupDate cache db t ctype).1 db).bind
        (fun e => assocGet e t) = some ⟨[], []⟩) ∧
      (get_columns_cached lookupAll lookupDate cache db t ctype).2 = [] ∧
      (∀ la2 ld2, get_columns_cached la2 ld2
          (get_columns_cached lookupAll lookupDate cache db t ctype).1 db t ctype
        = ((get_columns_cached lookupAll lookupDate cache db t ctype).1, [])) := by
  have hfetch : (assocGet (fetch_and_cache_table_columns lookupAll lookupDate cache db t)
      db).bind (fun e => assocGet e t) = some ⟨[], []⟩ := by
    unfold fetch_and_cache_table_columns
    rcases hdb : assocGet cache db with _ | entries
    · simp only [hdb, Option.isSome_none, Bool.false_eq_true, if_false,
        assocGet_assocSet, if_pos rfl, Option.getD_some, assocGet]
      rcases hsplit : splitTwo t with _ | p <;>
        simp [hsplit, hfail, assocGet_assocSet]
    · have hent : assocGet entries t = none := by
        rw [hdb] at habs
        simpa using habs
      simp only [hdb, Option.isSome_some, if_true, Option.getD_some, hent,
        Option.isSome_none, Bool.false_eq_true, if_false]
      rcases hsplit : splitTwo t with _ | p <;>
        simp [hsplit, hfail, assocGet_assocSet, hent]
  have hcall : get_columns_cached lookupAll lookupDate cache db t ctype
      = (fetch_and_cache_table_columns lookupAll lookupDate cache db t, []) := by
    unfold get_columns_cached
    simp only [habs, Option.isSome_none, Bool.false_eq_true, if_false, hfetch]
    rcases h : ctype == "all" <;> simp [h]
  refine ⟨by rw [hcall]; exact hfetch, by rw [hcall], ?_⟩
  intro la2 ld2
  rw [hcall]
  unfold get_columns_cached
  simp only [hfetch, Option.isSome_some, if_true]
  rcases h : ctype == "all" <;> simp [h]

theorem c7_amended_failed_lookup_caches_empty_witness :
    ((assocGet (get_columns_cached (fun _ _ => none) (fun _ _ => none)
        [] "DB" "S.T" "date").1 "DB").bind (fun e => assocGet e "S.T")
      = some ⟨[], []⟩) ∧
      (get_columns_cached (fun _ _ => none) (fun _ _ => none)
          [] "DB" "S.T" "date").2 = [] := by
  have h := c7_amended_failed_lookup_caches_empty (fun _ _ => none) (fun _ _ => none)
    [] "DB" "S.T" "date" rfl rfl
  exact ⟨h.1, h.2.1⟩
